import Mathlib

/-! Output destination dispatch (`pkg/output/output.go`).

A shallow embedding of the package's option-string parser and scheme
dispatcher, `New`, and of its registration entry point, `Register`.

Modelling choices.

* A Go `string` is a finite sequence of code units; it is embedded as a list
  of characters.  The separator `"://"` is ASCII, so splitting on it is the
  same on bytes and on characters.
* `strings.Index` and `strings.SplitN` (standard library) are embedded from
  their documented behaviour and the library's `genSplit` loop.
* `sync.Map` is embedded as a finite map in its extensional form: a function
  from keys to optional values, with `Load` and `Store`.
* Handlers and the package's constructors (`file`, `httpClient`, ...) perform
  I/O.  They are embedded as state transformers over an arbitrary environment
  type `σ`: what a call does to the outside world and what it returns may
  depend on the environment in any way.  The constructors live in sibling
  files of the package and are taken as a parameter of `New`.
* Handlers are total.  In the first embedding (`New`, `Register`) a handler
  acts on the environment only; the second embedding (`reentrant.New`,
  `reentrant.Register`) lets a handler call back into the package and change
  the registry, and agrees with the first on handlers that do not.
* The listening sinks behind `tcpListen`, `unixListen`, `httpListen` and
  `wsListen` are not part of `output.go`; their state and operations are
  modelled from the specification and marked as such.
-/

namespace output

/-- Go strings. -/
abbrev GoString := List Char

/-- Values of the interface type `io.WriteCloser` as far as `New` tells them
apart: `nil`, the two process streams `os.Stdout` and `os.Stderr`, and any
other sink, named by a handle. -/
inductive WriteCloser where
  | nil
  | Stdout
  | Stderr
  | sink (handle : Nat)
  deriving DecidableEq, Repr

/-- Values of the interface type `error`: `nil`, an error made by
`errors.New` (known by its text), or any other error value. -/
inductive error where
  | nil
  | errorString (text : GoString)
  | other (code : Nat)
  deriving DecidableEq, Repr

/-- The function `errors.New` of the standard library. -/
def errors.New (text : GoString) : error := error.errorString text

/-- The text of an error (`Error()`), when the model knows it. -/
def error.text : error → Option GoString
  | .errorString t => some t
  | _ => none

/-- The pair a constructor returns. -/
abbrev Result := WriteCloser × error

/-- `type Handler func(arg string) (io.WriteCloser, error)`: a call reads and
changes the environment and returns a pair. -/
abbrev Handler (σ : Type) := GoString → σ → Result × σ

/-- `sync.Map` holding handlers under string keys. -/
abbrev SyncMap (σ : Type) := GoString → Option (Handler σ)

/-- `(*sync.Map).Load`: the value stored under `key`, or `none` (`ok = false`). -/
def SyncMap.Load {σ : Type} (m : SyncMap σ) (key : GoString) : Option (Handler σ) :=
  m key

/-- `(*sync.Map).Store`: sets the value for `key`. -/
def SyncMap.Store {σ : Type} (m : SyncMap σ) (key : GoString) (value : Handler σ) :
    SyncMap σ :=
  fun k => if k = key then some value else m k

/-- The map with no entry: the zero value of `sync.Map`. -/
def SyncMap.empty {σ : Type} : SyncMap σ := fun _ => none

/-- Package state: the package-level variable `protocols` together with the
environment the handlers and constructors act on. -/
structure Pkg (σ : Type) where
  protocols : SyncMap σ
  env : σ

/-- `const queueSize = 10`. -/
def queueSize : Nat := 10

/-- The constructors `New` falls back to; they are defined in the other files
of the package. -/
structure Builtins (σ : Type) where
  file : Handler σ
  httpClient : Handler σ
  httpListen : Handler σ
  tcpClient : Handler σ
  tcpListen : Handler σ
  unixClient : Handler σ
  unixListen : Handler σ
  wsClient : Handler σ
  wsListen : Handler σ

/-- `strings.Index(s, substr)`: the index of the first occurrence of `substr`
in `s`; `none` stands for the result `-1`. -/
def Index : GoString → GoString → Option Nat
  | [], substr => if substr = [] then some 0 else none
  | c :: s, substr =>
    if substr.isPrefixOf (c :: s) then some 0
    else (Index s substr).map (· + 1)

/-- The loop of `strings.genSplit` for a non-empty separator: `k` is the number
of cuts still allowed (`n - 1 - i`). -/
def genSplitLoop (sep : GoString) : Nat → GoString → List GoString
  | 0, s => [s]
  | k + 1, s =>
    match Index s sep with
    | none => [s]
    | some m => s.take m :: genSplitLoop sep k (s.drop (m + sep.length))

/-- `strings.SplitN(s, sep, n)` for `n ≥ 0` and a non-empty separator: at most
`n` pieces, the last one being the unsplit remainder. -/
def SplitN (s sep : GoString) (n : Nat) : List GoString :=
  if n = 0 then []
  else genSplitLoop sep (min n (s.length + 1) - 1) s

/-- Runs a handler on the environment of the package state. -/
def call {σ : Type} (fn : Handler σ) (arg : GoString) (st : Pkg σ) : Result × Pkg σ :=
  ((fn arg st.env).1, { st with env := (fn arg st.env).2 })

/-- A `return w, err` of `New` that calls nothing. -/
def ret {σ : Type} (w : WriteCloser) (err : error) (st : Pkg σ) : Result × Pkg σ :=
  ((w, err), st)

/-- The `switch proto` of `New` (lines 33 to 95). -/
def builtin {σ : Type} (b : Builtins σ) (proto arg : GoString) (st : Pkg σ) :
    Result × Pkg σ :=
  if proto = "stdout".toList then ret .Stdout .nil st
  else if proto = "stderr".toList then ret .Stderr .nil st
  else if proto = "file".toList then
    if arg = [] then ret .nil (errors.New "file: no path supplied".toList) st
    else call b.file arg st
  else if proto = "http".toList then
    if arg = [] then ret .nil (errors.New "http: no address supplied".toList) st
    else call b.httpClient ("http://".toList ++ arg) st
  else if proto = "https".toList then
    if arg = [] then ret .nil (errors.New "https: no address supplied".toList) st
    else call b.httpClient ("https://".toList ++ arg) st
  else if proto = "http-listen".toList ∨ proto = "http-server".toList then
    if arg = [] then ret .nil (errors.New "http-listen: no address supplied".toList) st
    else call b.httpListen arg st
  else if proto = "tcp".toList then
    if arg = [] then ret .nil (errors.New "tcp: no address supplied".toList) st
    else call b.tcpClient arg st
  else if proto = "tcp-listen".toList ∨ proto = "tcp-server".toList then
    if arg = [] then ret .nil (errors.New "tcp-listen: no address supplied".toList) st
    else call b.tcpListen arg st
  else if proto = "unix".toList then
    if arg = [] then ret .nil (errors.New "unix: no address supplied".toList) st
    else call b.unixClient arg st
  else if proto = "unix-listen".toList ∨ proto = "unix-server".toList then
    if arg = [] then ret .nil (errors.New "unix-listen: no address supplied".toList) st
    else call b.unixListen arg st
  else if proto = "ws".toList then
    if arg = [] then ret .nil (errors.New "ws: no address supplied".toList) st
    else call b.wsClient ("ws://".toList ++ arg) st
  else if proto = "wss".toList then
    if arg = [] then ret .nil (errors.New "wss: no address supplied".toList) st
    else call b.wsClient ("wss://".toList ++ arg) st
  else if proto = "ws-listen".toList ∨ proto = "ws-server".toList then
    if arg = [] then ret .nil (errors.New "ws-listen: no address supplied".toList) st
    else call b.wsListen arg st
  else ret .nil (errors.New ("unknown output protocol: ".toList ++ proto)) st

/-- Lines 23 to 28 of `New`: the scheme and the argument of an option string.
`parts[0]` always exists (see `SplitN_two_ne_nil`); the default is never used. -/
def splitOpts (opts : GoString) : GoString × GoString :=
  let parts := SplitN opts "://".toList 2
  let proto := parts.headD []
  let arg := if parts.length > 1 then parts.getD 1 [] else []
  (proto, arg)

/-- `func New(opts string) (io.WriteCloser, error)`. -/
def New {σ : Type} (b : Builtins σ) (opts : GoString) (st : Pkg σ) : Result × Pkg σ :=
  let proto := (splitOpts opts).1
  let arg := (splitOpts opts).2
  match st.protocols.Load proto with
  | some fn => call fn arg st
  | none => builtin b proto arg st

/-- `func Register(proto string, fn Handler)`. -/
def Register {σ : Type} (proto : GoString) (fn : Handler σ) (st : Pkg σ) : Pkg σ :=
  { st with protocols := st.protocols.Store proto fn }

/-- The names of the package's constructors. -/
inductive Ctor where
  | file | httpClient | httpListen | tcpClient | tcpListen
  | unixClient | unixListen | wsClient | wsListen
  deriving DecidableEq, Repr

/-- The constructor of a given name. -/
def Builtins.get {σ : Type} (b : Builtins σ) : Ctor → Handler σ
  | .file => b.file
  | .httpClient => b.httpClient
  | .httpListen => b.httpListen
  | .tcpClient => b.tcpClient
  | .tcpListen => b.tcpListen
  | .unixClient => b.unixClient
  | .unixListen => b.unixListen
  | .wsClient => b.wsClient
  | .wsListen => b.wsListen

/-- One invocation of a constructor. -/
structure Call where
  ctor : Ctor
  arg : GoString
  deriving DecidableEq, Repr

/-- Constructors that append every invocation to a log (the environment) and
answer from the table `res`. -/
def recording (res : Ctor → GoString → Result) : Builtins (List Call) where
  file := fun a log => (res .file a, log ++ [⟨.file, a⟩])
  httpClient := fun a log => (res .httpClient a, log ++ [⟨.httpClient, a⟩])
  httpListen := fun a log => (res .httpListen a, log ++ [⟨.httpListen, a⟩])
  tcpClient := fun a log => (res .tcpClient a, log ++ [⟨.tcpClient, a⟩])
  tcpListen := fun a log => (res .tcpListen a, log ++ [⟨.tcpListen, a⟩])
  unixClient := fun a log => (res .unixClient a, log ++ [⟨.unixClient, a⟩])
  unixListen := fun a log => (res .unixListen a, log ++ [⟨.unixListen, a⟩])
  wsClient := fun a log => (res .wsClient a, log ++ [⟨.wsClient, a⟩])
  wsListen := fun a log => (res .wsListen a, log ++ [⟨.wsListen, a⟩])

/-- A missing-argument error: the text ends in `: no address supplied` or in
`: no path supplied`. -/
def MissingArgument (e : error) : Bool :=
  match e.text with
  | some t =>
    ": no address supplied".toList.isSuffixOf t || ": no path supplied".toList.isSuffixOf t
  | none => false

/-- An unknown-scheme error: the text starts with `unknown output protocol: `. -/
def UnknownScheme (e : error) : Bool :=
  match e.text with
  | some t => "unknown output protocol: ".toList.isPrefixOf t
  | none => false

/-- The error names `scheme`: its text is `scheme`, a colon, a blank and a
description. -/
def names (e : error) (scheme : GoString) : Bool :=
  match e.text with
  | some t => (scheme ++ ": ".toList).isPrefixOf t
  | none => false

/-- The built-in schemes that require an argument. -/
def argSchemes : List GoString :=
  ["file", "http", "https", "http-listen", "http-server", "tcp", "tcp-listen",
    "tcp-server", "unix", "unix-listen", "unix-server", "ws", "wss", "ws-listen",
    "ws-server"].map String.toList

/-- All built-in schemes. -/
def builtinSchemes : List GoString :=
  "stdout".toList :: "stderr".toList :: argSchemes

/-- The scheme under which a `switch` case reports a missing argument: the
first name of the case. -/
def caseName (scheme : GoString) : GoString :=
  if scheme = "http-server".toList then "http-listen".toList
  else if scheme = "tcp-server".toList then "tcp-listen".toList
  else if scheme = "unix-server".toList then "unix-listen".toList
  else if scheme = "ws-server".toList then "ws-listen".toList
  else scheme

/-- The error a case of the `switch` returns for an empty argument: the case's
first scheme name, then `: no path supplied` for `file` and
`: no address supplied` for every other scheme. -/
def emptyArgError (scheme : GoString) : error :=
  errors.New (caseName scheme ++
    (if scheme = "file".toList then ": no path supplied".toList
     else ": no address supplied".toList))

/-- For each built-in scheme that requires an argument: its constructor and the
text put in front of the argument before the constructor is called. -/
def wiring : List (GoString × Ctor × GoString) :=
  [("file".toList, .file, []),
   ("http".toList, .httpClient, "http://".toList),
   ("https".toList, .httpClient, "https://".toList),
   ("http-listen".toList, .httpListen, []),
   ("http-server".toList, .httpListen, []),
   ("tcp".toList, .tcpClient, []),
   ("tcp-listen".toList, .tcpListen, []),
   ("tcp-server".toList, .tcpListen, []),
   ("unix".toList, .unixClient, []),
   ("unix-listen".toList, .unixListen, []),
   ("unix-server".toList, .unixListen, []),
   ("ws".toList, .wsClient, "ws://".toList),
   ("wss".toList, .wsClient, "wss://".toList),
   ("ws-listen".toList, .wsListen, []),
   ("ws-server".toList, .wsListen, [])]

/-- The two names of each listening scheme, with the constructor behind them. -/
def listenPairs : List (GoString × GoString × Ctor) :=
  [("tcp-listen".toList, "tcp-server".toList, .tcpListen),
   ("unix-listen".toList, "unix-server".toList, .unixListen),
   ("http-listen".toList, "http-server".toList, .httpListen),
   ("ws-listen".toList, "ws-server".toList, .wsListen)]

/-- A sample answer table: the sink handle is the length of the argument. -/
def sampleRes : Ctor → GoString → Result := fun _ a => (.sink a.length, .nil)

/-- A sample package state: nothing registered, nothing logged. -/
def samplePkg : Pkg (List Call) := ⟨SyncMap.empty, []⟩

/-- A sample user handler: it logs nothing and returns sink 7. -/
def sampleHandler : Handler (List Call) := fun _ log => ((.sink 7, .nil), log)

/-- A second sample user handler: it returns sink 8. -/
def otherHandler : Handler (List Call) := fun _ log => ((.sink 8, .nil), log)

/-- A sample user handler whose answer shows the argument it was given: the
sink handle is the length of the argument. -/
def lengthHandler : Handler (List Call) := fun a log => ((.sink a.length, .nil), log)

/-- A sample user handler that fails with the text of the unknown-scheme error
for `tcp`. -/
def forgingHandler : Handler (List Call) :=
  fun _ log => ((.nil, errors.New "unknown output protocol: tcp".toList), log)

/-- A sample answer table whose constructors all fail with the text of the
unknown-scheme error for `file`. -/
def forgingRes : Ctor → GoString → Result :=
  fun _ _ => (.nil, errors.New "unknown output protocol: file".toList)

/-! ## Handlers that call back into the package

A Go handler is a closure: it may itself call `Register` and `New`, which act
on the package-level `protocols`.  In this second embedding the registry holds
function values of an arbitrary type `H`, and a parameter `invoke` says how a
function value runs on the whole package state, registry included.  The
package's own constructors still act on the environment only. -/

/-- Package state whose registry holds function values of type `H`. -/
structure Shared (H σ : Type) where
  protocols : GoString → Option H
  env : σ

/-- How function values run: a call gets the argument and may read and change
both the registry and the environment. -/
abbrev Invoke (H σ : Type) := H → GoString → Shared H σ → Result × Shared H σ

/-- The state with nothing registered. -/
def Shared.empty {H σ : Type} (env : σ) : Shared H σ := ⟨fun _ => none, env⟩

/-- `func Register(proto string, fn Handler)` on the shared state:
`protocols.Store(proto, fn)`. -/
def reentrant.Register {H σ : Type} (proto : GoString) (fn : H) (w : Shared H σ) :
    Shared H σ :=
  { w with protocols := fun k => if k = proto then some fn else w.protocols k }

/-- `func New(opts string) (io.WriteCloser, error)` on the shared state: the
same split and lookup; a registered function value runs on the whole state,
and the `switch` runs its constructor on the environment. -/
def reentrant.New {H σ : Type} (invoke : Invoke H σ) (b : Builtins σ) (opts : GoString)
    (w : Shared H σ) : Result × Shared H σ :=
  let proto := (splitOpts opts).1
  let arg := (splitOpts opts).2
  match w.protocols proto with
  | some fn => invoke fn arg w
  | none =>
    ((builtin b proto arg ⟨SyncMap.empty, w.env⟩).1,
     { w with env := (builtin b proto arg ⟨SyncMap.empty, w.env⟩).2.env })

/-- The handlers of the first embedding as function values: they act on the
environment and leave the registry alone. -/
def envOnly {σ : Type} : Invoke (Handler σ) σ :=
  fun fn arg w => ((fn arg w.env).1, { w with env := (fn arg w.env).2 })

/-- The package state of the first embedding as a shared state. -/
def Pkg.shared {σ : Type} (st : Pkg σ) : Shared (Handler σ) σ := ⟨st.protocols, st.env⟩

/-- Modelled from the spec: a byte sequence passed to `write` (the code of the
listening sinks is missing). -/
abbrev Payload := List Nat

/-- Modelled from the spec: the `Closed` error of the error taxonomy (the code
of the listening sinks is missing). -/
inductive SinkError where
  | Closed
  deriving DecidableEq, Repr

/-- Modelled from the spec: the Subscriber of the data model (the code of the
listening sinks is missing).  One accepted downstream connection: its queue,
oldest payload first; whether its transport connection is open; what has been
written to the connection; whether it is alive. -/
structure Subscriber where
  id : Nat
  queue : List Payload
  connected : Bool
  received : List Payload
  alive : Bool
  deriving DecidableEq, Repr

/-- Modelled from the spec: the Broadcaster of the data model (the code of the
listening sinks is missing).  `subscribers` is the broadcast set, `listening`
tells whether the transport listener is open, and `dropped` keeps every
subscriber that was removed from the set, in the state it was left in. -/
structure Broadcaster where
  subscribers : List Subscriber
  closed : Bool
  listening : Bool
  dropped : List Subscriber
  deriving DecidableEq, Repr

/-- Modelled from the spec: tearing a Subscriber down (the code of the
listening sinks is missing): its connection is closed and it is marked
not-alive. -/
def Subscriber.teardown (s : Subscriber) : Subscriber :=
  { s with connected := false, alive := false }

/-- Modelled from the spec: enqueueing a payload on a Subscriber's queue (the
code of the listening sinks is missing). -/
def Subscriber.enqueue (s : Subscriber) (payload : Payload) : Subscriber :=
  { s with queue := s.queue ++ [payload] }

/-- Modelled from the spec: one turn of a Subscriber's sender loop (the code of
the listening sinks is missing): while the Subscriber is alive, the oldest
queued payload is removed and written to the connection. -/
def Subscriber.send (s : Subscriber) : Subscriber :=
  if s.alive then
    match s.queue with
    | [] => s
    | payload :: rest => { s with queue := rest, received := s.received ++ [payload] }
  else s

/-- Modelled from the spec: a freshly constructed listening sink (the code of
the listening sinks is missing): listener bound, no subscriber, not closed. -/
def Broadcaster.listen : Broadcaster :=
  { subscribers := [], closed := false, listening := true, dropped := [] }

/-- Modelled from the spec: the accept loop takes one inbound connection (the
code of the listening sinks is missing): it is wrapped as a Subscriber with an
empty queue and added to the set; the loop has ended once the Broadcaster is
closed. -/
def Broadcaster.accept (b : Broadcaster) (id : Nat) : Broadcaster :=
  if b.closed then b
  else { b with subscribers := b.subscribers ++
          [{ id := id, queue := [], connected := true, received := [], alive := true }] }

/-- Modelled from the spec: the sender loop of Subscriber `id` takes one turn
(the code of the listening sinks is missing). -/
def Broadcaster.send (b : Broadcaster) (id : Nat) : Broadcaster :=
  { b with subscribers := b.subscribers.map (fun s => if s.id = id then s.send else s) }

/-- Modelled from the spec: the connection of Subscriber `id` errors (the code
of the listening sinks is missing): the Subscriber is destroyed. -/
def Broadcaster.connError (b : Broadcaster) (id : Nat) : Broadcaster :=
  { b with
    subscribers := b.subscribers.filter (fun s => s.id ≠ id)
    dropped := b.dropped ++
      (b.subscribers.filter (fun s => ¬ s.id ≠ id)).map Subscriber.teardown }

/-- Modelled from the spec: `write` on a Broadcaster (the code of the listening
sinks is missing).  After `close` it fails with `Closed`.  Otherwise every
Subscriber with room in its queue gets the payload, every Subscriber whose
queue is full is dropped (connection closed, not alive, removed from the set),
and the producer gets `(len(payload), nil)`. -/
def Broadcaster.write (b : Broadcaster) (payload : Payload) :
    (Nat × Option SinkError) × Broadcaster :=
  if b.closed then ((0, some .Closed), b)
  else
    ((payload.length, none),
     { b with
       subscribers :=
         (b.subscribers.filter (fun s => s.queue.length < queueSize)).map
           (fun s => s.enqueue payload)
       dropped := b.dropped ++
         (b.subscribers.filter (fun s => ¬ s.queue.length < queueSize)).map
           Subscriber.teardown })

/-- Modelled from the spec: `close` on a Broadcaster (the code of the listening
sinks is missing).  Every Subscriber is torn down, the transport listener is
closed; a second `close` does nothing and returns success. -/
def Broadcaster.close (b : Broadcaster) : Option SinkError × Broadcaster :=
  if b.closed then (none, b)
  else
    (none,
     { subscribers := []
       closed := true
       listening := false
       dropped := b.dropped ++ b.subscribers.map Subscriber.teardown })

/-- Modelled from the spec: the events in the life of a listening sink (the
code of the listening sinks is missing). -/
inductive Op where
  | accept (id : Nat)
  | send (id : Nat)
  | connError (id : Nat)
  | write (payload : Payload)
  | close
  deriving DecidableEq, Repr

/-- Modelled from the spec: the effect of one event on the Broadcaster (the
code of the listening sinks is missing). -/
def Broadcaster.step (b : Broadcaster) : Op → Broadcaster
  | .accept id => b.accept id
  | .send id => b.send id
  | .connError id => b.connError id
  | .write payload => (b.write payload).2
  | .close => b.close.2

/-- Modelled from the spec: the effect of a sequence of events, first event
first (the code of the listening sinks is missing). -/
def Broadcaster.run : List Op → Broadcaster → Broadcaster
  | [], b => b
  | op :: ops, b => Broadcaster.run ops (b.step op)

theorem Index_eq_none_of_not_infix (sep : GoString) :
    ∀ s : GoString, ¬ sep <:+: s → Index s sep = none := by
  intro s
  induction s with
  | nil =>
    intro h
    have : sep ≠ [] := by
      rintro rfl
      exact h List.nil_infix
    simp [Index, this]
  | cons c s ih =>
    intro h
    have hp : ¬ sep <+: c :: s := fun hp => h hp.isInfix
    have hs : ¬ sep <:+: s := fun hs => h (hs.trans (List.suffix_cons c s).isInfix)
    have hb : sep.isPrefixOf (c :: s) = false := by
      rw [Bool.eq_false_iff]
      intro hb
      exact hp (List.isPrefixOf_iff_prefix.mp hb)
    simp only [Index, hb, ih hs]
    rfl

theorem sep_toList : "://".toList = [':', '/', '/'] := rfl

theorem Index_append_sep (s a : GoString) (hs : ¬ "://".toList <:+: s) :
    Index (s ++ "://".toList ++ a) "://".toList = some s.length := by
  rw [sep_toList] at hs ⊢
  induction s with
  | nil => simp [Index]
  | cons c s ih =>
    have hs2 : ¬ [':', '/', '/'] <:+: s := fun h => hs (h.trans (List.suffix_cons c s).isInfix)
    have hp : ¬ [':', '/', '/'] <+: c :: s := fun hp => hs hp.isInfix
    have hb : ([':', '/', '/']).isPrefixOf (c :: (s ++ [':', '/', '/'] ++ a)) = false := by
      rw [Bool.eq_false_iff]
      intro hb
      match s, hp with
      | [], _ => simp at hb
      | [d], _ => simp at hb
      | d :: e :: s2, hp =>
        apply hp
        simp at hb
        obtain ⟨h1, h2, h3⟩ := hb
        subst h1 h2 h3
        exact List.prefix_append _ _
    show Index (c :: (s ++ [':', '/', '/'] ++ a)) [':', '/', '/'] = some (s.length + 1)
    rw [Index, hb, ih hs2]
    rfl

theorem SplitN_two_ne_nil (s sep : GoString) : SplitN s sep 2 ≠ [] := by
  unfold SplitN
  simp only [show (2 : Nat) ≠ 0 by decide, if_false]
  cases h : min 2 (s.length + 1) - 1 with
  | zero => simp [genSplitLoop]
  | succ k =>
    unfold genSplitLoop
    cases Index s sep <;> simp

theorem splitOpts_sep (s a : GoString) (hs : ¬ "://".toList <:+: s) :
    splitOpts (s ++ "://".toList ++ a) = (s, a) := by
  have hi := Index_append_sep s a hs
  have hlen : min 2 ((s ++ "://".toList ++ a).length + 1) - 1 = 1 := by
    simp only [List.length_append, sep_toList, List.length_cons, List.length_nil]
    omega
  unfold splitOpts SplitN
  simp only [show (2 : Nat) ≠ 0 by decide, if_false, hlen, genSplitLoop, hi]
  simp [sep_toList]

theorem splitOpts_no_sep (s : GoString) (hs : ¬ "://".toList <:+: s) :
    splitOpts s = (s, []) := by
  have hi := Index_eq_none_of_not_infix "://".toList s hs
  unfold splitOpts SplitN
  simp only [show (2 : Nat) ≠ 0 by decide, if_false]
  cases h : min 2 (s.length + 1) - 1 with
  | zero => simp [genSplitLoop]
  | succ k => simp only [genSplitLoop, hi]; simp

/-! ## Dispatch -/

theorem New_of_unregistered {σ : Type} (b : Builtins σ) (st : Pkg σ) (opts p a : GoString)
    (hsplit : splitOpts opts = (p, a)) (hl : st.protocols.Load p = none) :
    New b opts st = builtin b p a st := by
  simp only [New, hsplit, hl]

theorem New_of_registered {σ : Type} (b : Builtins σ) (st : Pkg σ) (opts p a : GoString)
    (fn : Handler σ) (hsplit : splitOpts opts = (p, a)) (hl : st.protocols.Load p = some fn) :
    New b opts st = call fn a st := by
  simp only [New, hsplit, hl]

theorem Load_Register_same {σ : Type} (s : GoString) (h : Handler σ) (st : Pkg σ) :
    (Register s h st).protocols.Load s = some h := by
  simp [Register, SyncMap.Load, SyncMap.Store]

theorem Load_Register_other {σ : Type} (s t : GoString) (h : Handler σ) (st : Pkg σ)
    (hne : t ≠ s) : (Register s h st).protocols.Load t = st.protocols.Load t := by
  simp [Register, SyncMap.Load, SyncMap.Store, hne]

theorem Register_Register {σ : Type} (s : GoString) (h1 h2 : Handler σ) (st : Pkg σ) :
    Register s h2 (Register s h1 st) = Register s h2 st := by
  unfold Register
  congr 1
  funext k
  simp only [SyncMap.Store]
  split <;> rfl

theorem splitOpts_argSchemes (s : GoString) (hs : s ∈ argSchemes) :
    splitOpts s = (s, []) ∧ splitOpts (s ++ "://".toList) = (s, []) := by
  simp only [argSchemes, List.map_cons, List.map_nil, List.mem_cons, List.mem_singleton,
    List.not_mem_nil, or_false] at hs
  rcases hs with h | h | h | h | h | h | h | h | h | h | h | h | h | h | h <;> subst h <;>
    exact ⟨by rfl, by rfl⟩

theorem builtin_empty_arg {σ : Type} (b : Builtins σ) (st : Pkg σ) (s : GoString)
    (hs : s ∈ argSchemes) : builtin b s [] st = ((.nil, emptyArgError s), st) := by
  simp only [argSchemes, List.map_cons, List.map_nil, List.mem_cons, List.mem_singleton,
    List.not_mem_nil, or_false] at hs
  rcases hs with h | h | h | h | h | h | h | h | h | h | h | h | h | h | h <;> subst h <;> rfl

theorem MissingArgument_emptyArgError (s : GoString) (hs : s ∈ argSchemes) :
    MissingArgument (emptyArgError s) = true := by
  simp only [argSchemes, List.map_cons, List.map_nil, List.mem_cons, List.mem_singleton,
    List.not_mem_nil, or_false] at hs
  rcases hs with h | h | h | h | h | h | h | h | h | h | h | h | h | h | h <;> subst h <;>
    decide

theorem UnknownScheme_emptyArgError (s : GoString) (hs : s ∈ argSchemes) :
    UnknownScheme (emptyArgError s) = false := by
  simp only [argSchemes, List.map_cons, List.map_nil, List.mem_cons, List.mem_singleton,
    List.not_mem_nil, or_false] at hs
  rcases hs with h | h | h | h | h | h | h | h | h | h | h | h | h | h | h <;> subst h <;>
    decide

theorem builtin_stdout {σ : Type} (b : Builtins σ) (st : Pkg σ) (a : GoString) :
    builtin b "stdout".toList a st = ((.Stdout, .nil), st) := rfl

theorem builtin_stderr {σ : Type} (b : Builtins σ) (st : Pkg σ) (a : GoString) :
    builtin b "stderr".toList a st = ((.Stderr, .nil), st) := rfl

theorem builtin_nonempty_arg {σ : Type} (b : Builtins σ) (st : Pkg σ) (s p a : GoString)
    (c : Ctor) (hw : (s, c, p) ∈ wiring) (ha : a ≠ []) :
    builtin b s a st = call (b.get c) (p ++ a) st := by
  simp only [wiring, List.mem_cons, List.mem_singleton, List.not_mem_nil, or_false,
    Prod.mk.injEq] at hw
  rcases hw with h | h | h | h | h | h | h | h | h | h | h | h | h | h | h <;>
    obtain ⟨h1, h2, h3⟩ := h <;> subst h1 h2 h3 <;> simp [builtin, ha, Builtins.get]

theorem wiring_covers (s : GoString) (hs : s ∈ argSchemes) :
    ∃ c p, (s, c, p) ∈ wiring := by
  simp only [argSchemes, List.map_cons, List.map_nil, List.mem_cons, List.mem_singleton,
    List.not_mem_nil, or_false] at hs
  rcases hs with h | h | h | h | h | h | h | h | h | h | h | h | h | h | h <;> subst h
  · exact ⟨.file, [], by decide⟩
  · exact ⟨.httpClient, "http://".toList, by decide⟩
  · exact ⟨.httpClient, "https://".toList, by decide⟩
  · exact ⟨.httpListen, [], by decide⟩
  · exact ⟨.httpListen, [], by decide⟩
  · exact ⟨.tcpClient, [], by decide⟩
  · exact ⟨.tcpListen, [], by decide⟩
  · exact ⟨.tcpListen, [], by decide⟩
  · exact ⟨.unixClient, [], by decide⟩
  · exact ⟨.unixListen, [], by decide⟩
  · exact ⟨.unixListen, [], by decide⟩
  · exact ⟨.wsClient, "ws://".toList, by decide⟩
  · exact ⟨.wsClient, "wss://".toList, by decide⟩
  · exact ⟨.wsListen, [], by decide⟩
  · exact ⟨.wsListen, [], by decide⟩

theorem ite_cases {α : Type} (P : α → Prop) (c : Prop) [Decidable c] (x y : α)
    (hx : P x) (hy : P y) : P (if c then x else y) := by
  split <;> assumption

theorem builtin_cases {σ : Type} (b : Builtins σ) (st : Pkg σ) (p a : GoString)
    (P : Result × Pkg σ → Prop) (hret : ∀ w e, P ((w, e), st))
    (hcall : ∀ fn arg, P (call fn arg st)) : P (builtin b p a st) := by
  unfold builtin
  repeat' apply ite_cases
  all_goals first
    | exact hret _ _
    | exact hcall _ _

theorem builtin_Register {σ : Type} (b : Builtins σ) (st : Pkg σ) (s : GoString)
    (h : Handler σ) (p a : GoString) :
    builtin b p a (Register s h st)
      = ((builtin b p a st).1, Register s h (builtin b p a st).2) := by
  show builtin b p a (Register s h st)
    = (fun x : Result × Pkg σ => (x.1, Register s h x.2)) (builtin b p a st)
  unfold builtin
  simp only [apply_ite (fun x : Result × Pkg σ => (x.1, Register s h x.2))]
  rfl

theorem New_protocols {σ : Type} (b : Builtins σ) (st : Pkg σ) (opts : GoString) :
    (New b opts st).2.protocols = st.protocols := by
  cases hl : st.protocols.Load (splitOpts opts).1 with
  | some fn =>
    rw [New_of_registered b st opts (splitOpts opts).1 (splitOpts opts).2 fn rfl hl]
    rfl
  | none =>
    rw [New_of_unregistered b st opts (splitOpts opts).1 (splitOpts opts).2 rfl hl]
    exact builtin_cases b st _ _ (fun x => x.2.protocols = st.protocols)
      (fun _ _ => rfl) (fun _ _ => rfl)

theorem wiring_scheme_no_sep (s p : GoString) (c : Ctor) (hw : (s, c, p) ∈ wiring) :
    ¬ "://".toList <:+: s := by
  simp only [wiring, List.mem_cons, List.mem_singleton, List.not_mem_nil, or_false,
    Prod.mk.injEq] at hw
  rcases hw with h | h | h | h | h | h | h | h | h | h | h | h | h | h | h <;>
    obtain ⟨h1, -, -⟩ := h <;> subst h1 <;> decide

theorem builtin_state {σ : Type} (b : Builtins σ) (st : Pkg σ) (p a : GoString) :
    builtin b p a st
      = ((builtin b p a ⟨SyncMap.empty, st.env⟩).1,
          ⟨st.protocols, (builtin b p a ⟨SyncMap.empty, st.env⟩).2.env⟩) := by
  show builtin b p a st
    = (fun x : Result × Pkg σ => (x.1, (⟨st.protocols, x.2.env⟩ : Pkg σ)))
        (builtin b p a ⟨SyncMap.empty, st.env⟩)
  unfold builtin
  simp only [apply_ite (fun x : Result × Pkg σ => (x.1, (⟨st.protocols, x.2.env⟩ : Pkg σ)))]
  rfl

theorem reentrant_New_envOnly {σ : Type} (b : Builtins σ) (st : Pkg σ) (opts : GoString) :
    reentrant.New envOnly b opts st.shared
      = ((New b opts st).1, (New b opts st).2.shared) := by
  cases hl : st.protocols.Load (splitOpts opts).1 with
  | some fn =>
    rw [New_of_registered b st opts (splitOpts opts).1 (splitOpts opts).2 fn rfl hl]
    have hl2 : st.shared.protocols (splitOpts opts).1 = some fn := hl
    simp only [reentrant.New, hl2]
    rfl
  | none =>
    rw [New_of_unregistered b st opts (splitOpts opts).1 (splitOpts opts).2 rfl hl]
    have hl2 : st.shared.protocols (splitOpts opts).1 = none := hl
    simp only [reentrant.New, hl2]
    rw [builtin_state b st]
    rfl

theorem reentrant_Register_envOnly {σ : Type} (s : GoString) (h : Handler σ) (st : Pkg σ) :
    reentrant.Register s h st.shared = (Register s h st).shared := rfl

/-! ## The claims -/

/-- Claim C1: `New` cuts its input at the first `"://"` only.  For every scheme
`s` without `"://"` and every argument `a` (empty, or itself containing
`"://"`), the option string `s ++ "://" ++ a` is parsed into scheme `s` and
argument `a`, and `New` looks up and dispatches on exactly that pair. -/
theorem C1_split_at_first_separator {σ : Type} (b : Builtins σ) (st : Pkg σ)
    (s a : GoString) (hs : ¬ "://".toList <:+: s) :
    splitOpts (s ++ "://".toList ++ a) = (s, a) ∧
    New b (s ++ "://".toList ++ a) st =
      (match st.protocols.Load s with
       | some fn => call fn a st
       | none => builtin b s a st) := by
  have hsplit := splitOpts_sep s a hs
  refine ⟨hsplit, ?_⟩
  cases hl : st.protocols.Load s with
  | none => exact New_of_unregistered b st _ s a hsplit hl
  | some fn => exact New_of_registered b st _ s a fn hsplit hl

theorem C1_split_at_first_separator_witness :
    ¬ "://".toList <:+: "tcp".toList ∧
    splitOpts ("tcp".toList ++ "://".toList ++ "a://b://c".toList)
      = ("tcp".toList, "a://b://c".toList) ∧
    New (recording sampleRes) ("tcp".toList ++ "://".toList ++ "a://b://c".toList) samplePkg
      = ((.sink 9, .nil), ⟨SyncMap.empty, [⟨.tcpClient, "a://b://c".toList⟩]⟩) :=
  ⟨by decide,
   (C1_split_at_first_separator (recording sampleRes) samplePkg "tcp".toList
      "a://b://c".toList (by decide)).1,
   (C1_split_at_first_separator (recording sampleRes) samplePkg "tcp".toList
      "a://b://c".toList (by decide)).2.trans rfl⟩

/-- Claim C2: for each built-in scheme that requires an argument and has no
user registration, `New` on `scheme` and on `scheme://` returns a nil sink and
a missing-argument error and leaves the package state as it was: no
constructor runs (with recording constructors the log is unchanged). -/
theorem C2_empty_argument_is_rejected {σ : Type} (b : Builtins σ) (st : Pkg σ)
    (s : GoString) (hs : s ∈ argSchemes) (hl : st.protocols.Load s = none) :
    (∃ e : error, MissingArgument e = true ∧
      New b s st = ((.nil, e), st) ∧
      New b (s ++ "://".toList) st = ((.nil, e), st)) ∧
    (∀ (res : Ctor → GoString → Result) (rs : Pkg (List Call)),
      rs.protocols.Load s = none →
      (New (recording res) s rs).2.env = rs.env ∧
      (New (recording res) (s ++ "://".toList) rs).2.env = rs.env) := by
  have key : ∀ {τ : Type} (c : Builtins τ) (ts : Pkg τ), ts.protocols.Load s = none →
      New c s ts = ((.nil, emptyArgError s), ts) ∧
      New c (s ++ "://".toList) ts = ((.nil, emptyArgError s), ts) := by
    intro τ c ts htl
    rw [New_of_unregistered c ts _ s [] (splitOpts_argSchemes s hs).1 htl,
      New_of_unregistered c ts _ s [] (splitOpts_argSchemes s hs).2 htl,
      builtin_empty_arg c ts s hs]
    exact ⟨rfl, rfl⟩
  refine ⟨⟨emptyArgError s, MissingArgument_emptyArgError s hs, key b st hl⟩, ?_⟩
  intro res rs hrl
  obtain ⟨h1, h2⟩ := key (recording res) rs hrl
  rw [h1, h2]
  exact ⟨rfl, rfl⟩

theorem C2_empty_argument_is_rejected_witness :
    "tcp-listen".toList ∈ argSchemes ∧
    New (recording sampleRes) "tcp-listen".toList samplePkg
      = ((.nil, errors.New "tcp-listen: no address supplied".toList), samplePkg) ∧
    (New (recording sampleRes) "tcp-listen://".toList samplePkg).2.env = [] := by
  have h := C2_empty_argument_is_rejected (recording sampleRes) samplePkg
    "tcp-listen".toList (by decide) rfl
  exact ⟨by decide, rfl, (h.2 sampleRes samplePkg rfl).2⟩

/-- Claim C3, refuted as stated: with nothing registered, `New` on
`tcp-server://` reports `tcp-listen: no address supplied`; the text does not
contain the scheme `tcp-server` the caller supplied. -/
theorem C3_server_alias_named_as_listen :
    (New (recording sampleRes) "tcp-server://".toList samplePkg).1
      = (.nil, errors.New "tcp-listen: no address supplied".toList) ∧
    ¬ "tcp-server".toList <:+: "tcp-listen: no address supplied".toList ∧
    names (New (recording sampleRes) "tcp-server://".toList samplePkg).1.2
      "tcp-server".toList = false :=
  ⟨rfl, by decide, by decide⟩

/-- Claim C3, amended: for each built-in scheme that requires an argument and
has no user registration, the missing-argument error `New` returns for an empty
argument names the first scheme of the `switch` case that handles it: the
supplied scheme itself, except that each `-server` alias is reported under its
`-listen` name. -/
theorem C3_error_names_case_scheme {σ : Type} (b : Builtins σ) (st : Pkg σ)
    (s : GoString) (hs : s ∈ argSchemes) (hl : st.protocols.Load s = none) :
    MissingArgument (New b (s ++ "://".toList) st).1.2 = true ∧
    names (New b (s ++ "://".toList) st).1.2 (caseName s) = true ∧
    names (New b s st).1.2 (caseName s) = true ∧
    (s ∉ ["http-server".toList, "tcp-server".toList, "unix-server".toList,
        "ws-server".toList] → caseName s = s) := by
  have h1 := builtin_empty_arg b st s hs
  have e1 : New b (s ++ "://".toList) st = ((.nil, emptyArgError s), st) := by
    rw [New_of_unregistered b st _ s [] (splitOpts_argSchemes s hs).2 hl, h1]
  have e2 : New b s st = ((.nil, emptyArgError s), st) := by
    rw [New_of_unregistered b st _ s [] (splitOpts_argSchemes s hs).1 hl, h1]
  rw [e1, e2]
  show MissingArgument (emptyArgError s) = true ∧ names (emptyArgError s) (caseName s) = true ∧
    names (emptyArgError s) (caseName s) = true ∧ _
  simp only [argSchemes, List.map_cons, List.map_nil, List.mem_cons, List.mem_singleton,
    List.not_mem_nil, or_false] at hs
  rcases hs with h | h | h | h | h | h | h | h | h | h | h | h | h | h | h <;> subst h <;>
    decide

theorem C3_error_names_case_scheme_witness :
    "http-server".toList ∈ argSchemes ∧
    names (New (recording sampleRes) "http-server://".toList samplePkg).1.2
      "http-listen".toList = true :=
  ⟨by decide,
   (C3_error_names_case_scheme (recording sampleRes) samplePkg "http-server".toList
      (by decide) rfl).2.1⟩

/-- Claim C4, refuted as stated: `New` can return the unknown-scheme error for
a scheme that is registered and built in.  After `Register("tcp", h)` with `h`
failing with the text `unknown output protocol: tcp`, `New("tcp://x")` returns
a nil sink and that very error; and with nothing registered, a file
constructor failing with `unknown output protocol: file` makes
`New("file:///path")` return it for the built-in scheme `file`. -/
theorem C4_unknown_error_from_callee :
    (New (recording sampleRes) "tcp://x".toList
        (Register "tcp".toList forgingHandler samplePkg)).1
      = (.nil, errors.New "unknown output protocol: tcp".toList) ∧
    ((Register "tcp".toList forgingHandler samplePkg).protocols.Load
        (splitOpts "tcp://x".toList).1).isSome = true ∧
    (splitOpts "tcp://x".toList).1 ∈ builtinSchemes ∧
    (New (recording forgingRes) "file:///path".toList samplePkg).1
      = (.nil, errors.New "unknown output protocol: file".toList) ∧
    (splitOpts "file:///path".toList).1 ∈ builtinSchemes :=
  ⟨rfl, rfl, by decide, rfl, by decide⟩

/-- Claim C4, amended: when the scheme part of the input is neither registered
nor a built-in name, `New` returns a nil sink and the error
`unknown output protocol: ` followed by the scheme part, whatever the
argument.  `New` makes that error itself only in this case: when it returns an
unknown-scheme error for a registered or built-in scheme, the result is the
unchanged result of the handler or constructor that `New` called.
`New("unknown-scheme://x")` is such a failure. -/
theorem C4_unknown_scheme {σ : Type} (b : Builtins σ) (st : Pkg σ) (opts : GoString) :
    (st.protocols.Load (splitOpts opts).1 = none → (splitOpts opts).1 ∉ builtinSchemes →
      New b opts st =
        ((.nil, errors.New ("unknown output protocol: ".toList ++ (splitOpts opts).1)), st)) ∧
    (UnknownScheme (New b opts st).1.2 = true →
      (st.protocols.Load (splitOpts opts).1 = none ∧ (splitOpts opts).1 ∉ builtinSchemes) ∨
      ∃ (fn : Handler σ) (arg : GoString),
        (st.protocols.Load (splitOpts opts).1 = some fn ∨ ∃ c, fn = b.get c) ∧
        New b opts st = call fn arg st) ∧
    (st.protocols.Load "unknown-scheme".toList = none →
      New b "unknown-scheme://x".toList st =
        ((.nil, errors.New "unknown output protocol: unknown-scheme".toList), st)) := by
  refine ⟨?_, ?_, ?_⟩
  · intro hl hb
    rw [New_of_unregistered b st opts (splitOpts opts).1 (splitOpts opts).2 rfl hl]
    simp only [builtinSchemes, argSchemes, List.map_cons, List.map_nil, List.mem_cons,
      List.mem_singleton, List.not_mem_nil, or_false, not_or] at hb
    obtain ⟨h1, h2, h3, h4, h5, h6, h7, h8, h9, h10, h11, h12, h13, h14, h15, h16, h17⟩ := hb
    simp only [builtin, h1, h2, h3, h4, h5, h6, h7, h8, h9, h10, h11, h12, h13, h14, h15,
      h16, h17, if_false, or_self, ret]
  · intro hu
    cases hl : st.protocols.Load (splitOpts opts).1 with
    | some fn =>
      exact Or.inr ⟨fn, (splitOpts opts).2, Or.inl rfl, New_of_registered b st opts (splitOpts opts).1 (splitOpts opts).2 fn rfl hl⟩
    | none =>
      by_cases hb : (splitOpts opts).1 ∈ builtinSchemes
      · right
        rw [New_of_unregistered b st opts (splitOpts opts).1 (splitOpts opts).2 rfl hl] at hu ⊢
        generalize (splitOpts opts).1 = p at hb hu ⊢
        generalize (splitOpts opts).2 = a at hu ⊢
        simp only [builtinSchemes, List.mem_cons] at hb
        rcases hb with h | h | hb
        · subst h
          rw [builtin_stdout] at hu
          exact absurd (show UnknownScheme error.nil = true from hu) (by decide)
        · subst h
          rw [builtin_stderr] at hu
          exact absurd (show UnknownScheme error.nil = true from hu) (by decide)
        · by_cases ha : a = []
          · subst ha
            rw [builtin_empty_arg b st p hb] at hu
            rw [show (((WriteCloser.nil, emptyArgError p), st) : Result × Pkg σ).1.2
              = emptyArgError p from rfl, UnknownScheme_emptyArgError p hb] at hu
            exact absurd hu (by decide)
          · obtain ⟨c, q, hw⟩ := wiring_covers p hb
            exact ⟨b.get c, q ++ a, Or.inr ⟨c, rfl⟩, builtin_nonempty_arg b st p q a c hw ha⟩
      · exact Or.inl ⟨rfl, hb⟩
  · intro hl
    exact (New_of_unregistered b st _ "unknown-scheme".toList "x".toList (by rfl) hl).trans rfl

theorem C4_unknown_scheme_witness :
    samplePkg.protocols.Load (splitOpts "foo://bar".toList).1 = none ∧
    (splitOpts "foo://bar".toList).1 ∉ builtinSchemes ∧
    New (recording sampleRes) "foo://bar".toList samplePkg =
      ((.nil, errors.New "unknown output protocol: foo".toList), samplePkg) ∧
    New (recording sampleRes) "unknown-scheme://x".toList samplePkg =
      ((.nil, errors.New "unknown output protocol: unknown-scheme".toList), samplePkg) :=
  ⟨rfl, by decide,
   (C4_unknown_scheme (recording sampleRes) samplePkg "foo://bar".toList).1 rfl (by decide),
   (C4_unknown_scheme (recording sampleRes) samplePkg "foo://bar".toList).2.2 rfl⟩

/-- Claim C5, refuted as stated: a handler registered under a name that itself
contains `"://"` is not reached.  After `Register("a://b", h)`, the input
`"a://b" ++ "://" ++ "x"` is cut at its first `"://"`, so `New` looks up scheme
`a` and fails with `unknown output protocol: a` instead of returning `h("x")`. -/
theorem C5_name_with_separator_not_reached :
    (New (recording sampleRes) ("a://b".toList ++ "://".toList ++ "x".toList)
        (Register "a://b".toList sampleHandler samplePkg)).1
      = (.nil, errors.New "unknown output protocol: a".toList) ∧
    (call sampleHandler "x".toList (Register "a://b".toList sampleHandler samplePkg)).1
      = (.sink 7, .nil) ∧
    (New (recording sampleRes) ("a://b".toList ++ "://".toList ++ "x".toList)
        (Register "a://b".toList sampleHandler samplePkg)).1
      ≠ (call sampleHandler "x".toList (Register "a://b".toList sampleHandler samplePkg)).1 :=
  ⟨rfl, rfl, by decide⟩

/-- Claim C5, amended: a user-registered constructor takes precedence over the
built-in set.  For every scheme `s` that does not contain `"://"`, after
`Register(s, h)` and for every argument `a`, `New(s ++ "://" ++ a)` returns
exactly `h(a)`, whatever the built-in constructors are and also when `s` is a
built-in name. -/
theorem C5_registered_handler_first {σ : Type} (b : Builtins σ) (st : Pkg σ)
    (s a : GoString) (h : Handler σ) (hs : ¬ "://".toList <:+: s) :
    New b (s ++ "://".toList ++ a) (Register s h st) = call h a (Register s h st) :=
  New_of_registered b (Register s h st) _ s a h (splitOpts_sep s a hs)
    (Load_Register_same s h st)

theorem C5_registered_handler_first_witness :
    ¬ "://".toList <:+: "stdout".toList ∧
    "stdout".toList ∈ builtinSchemes ∧
    (New (recording sampleRes) ("stdout".toList ++ "://".toList ++ "x".toList)
        (Register "stdout".toList sampleHandler samplePkg)).1 = (.sink 7, .nil) :=
  ⟨by decide, by decide,
   (congrArg Prod.fst (C5_registered_handler_first (recording sampleRes) samplePkg
      "stdout".toList "x".toList sampleHandler (by decide))).trans rfl⟩

/-- Claim C6: the last registration wins.  After `Register(s, h1)` followed by
`Register(s, h2)`, `New` on scheme `s` runs `h2` on the argument; the package
state is the one reached by registering `h2` alone, so `h1` is gone; and
registering the same handler twice gives the state reached by registering it
once. -/
theorem C6_last_registration_wins {σ : Type} (b : Builtins σ) (st : Pkg σ)
    (s opts : GoString) (h1 h2 : Handler σ) (hs : (splitOpts opts).1 = s) :
    New b opts (Register s h2 (Register s h1 st))
      = call h2 (splitOpts opts).2 (Register s h2 (Register s h1 st)) ∧
    Register s h2 (Register s h1 st) = Register s h2 st ∧
    New b opts (Register s h2 (Register s h1 st)) = New b opts (Register s h2 st) ∧
    Register s h1 (Register s h1 st) = Register s h1 st := by
  refine ⟨?_, Register_Register s h1 h2 st, ?_, Register_Register s h1 h1 st⟩
  · exact New_of_registered b _ opts s _ h2 (by rw [← hs]) (Load_Register_same s h2 _)
  · rw [Register_Register]

theorem C6_last_registration_wins_witness :
    (splitOpts "tcp://x".toList).1 = "tcp".toList ∧
    (New (recording sampleRes) "tcp://x".toList
        (Register "tcp".toList otherHandler (Register "tcp".toList sampleHandler samplePkg))).1
      = (.sink 8, .nil) :=
  ⟨by decide,
   (congrArg Prod.fst (C6_last_registration_wins (recording sampleRes) samplePkg
      "tcp".toList "tcp://x".toList sampleHandler otherHandler (by decide)).1).trans rfl⟩

/-- Claim C8: the `-listen` and `-server` names of a family are
interchangeable.  For each of tcp, unix, http and ws, when neither name is
registered, `New` on `X-listen://a` and on `X-server://a` have the same
outcome for every argument `a`: the same missing-argument error when `a` is
empty, and otherwise the result of the same listening constructor called with
`a`. -/
theorem C8_listen_server_interchangeable {σ : Type} (b : Builtins σ) (st : Pkg σ)
    (l sv a : GoString) (c : Ctor) (hp : (l, sv, c) ∈ listenPairs)
    (hl : st.protocols.Load l = none) (hsv : st.protocols.Load sv = none) :
    New b (l ++ "://".toList ++ a) st = New b (sv ++ "://".toList ++ a) st ∧
    New b (l ++ "://".toList ++ a) st =
      (if a = [] then ((.nil, emptyArgError l), st) else call (b.get c) a st) := by
  simp only [listenPairs, List.mem_cons, List.mem_singleton, List.not_mem_nil, or_false,
    Prod.mk.injEq] at hp
  rcases hp with h | h | h | h <;> obtain ⟨h1, h2, h3⟩ := h <;> subst h1 h2 h3 <;>
    rw [New_of_unregistered b st _ _ a (splitOpts_sep _ a (by decide)) hl,
      New_of_unregistered b st _ _ a (splitOpts_sep _ a (by decide)) hsv] <;>
    by_cases ha : a = [] <;> simp [builtin, ha, Builtins.get, emptyArgError, caseName, ret]

theorem C8_listen_server_interchangeable_witness :
    ("ws-listen".toList, "ws-server".toList, Ctor.wsListen) ∈ listenPairs ∧
    New (recording sampleRes) ("ws-listen".toList ++ "://".toList ++ ":8080".toList) samplePkg
      = New (recording sampleRes) ("ws-server".toList ++ "://".toList ++ ":8080".toList)
          samplePkg ∧
    (New (recording sampleRes) ("ws-server".toList ++ "://".toList ++ ":8080".toList)
        samplePkg).2.env = [⟨.wsListen, ":8080".toList⟩] :=
  ⟨by decide,
   (C8_listen_server_interchangeable (recording sampleRes) samplePkg "ws-listen".toList
      "ws-server".toList ":8080".toList .wsListen (by decide) rfl rfl).1, rfl⟩

/-- Claim C9: constructor results are passed through unchanged.  For each
built-in scheme that requires an argument and has no user registration, and
every non-empty argument, `New` is one call of that scheme's constructor: it
returns exactly the pair the constructor returned and has exactly the
constructor's effect.  With recording constructors the log grows by exactly
one entry, the call of that constructor, and the result is the one the
constructor gave, so no error of `New` itself takes its place.  The table
`wiring` lists every scheme that requires an argument. -/
theorem C9_constructor_result_passed_through {σ : Type} (b : Builtins σ) (st : Pkg σ)
    (s p a : GoString) (c : Ctor) (hw : (s, c, p) ∈ wiring) (ha : a ≠ [])
    (hl : st.protocols.Load s = none) :
    New b (s ++ "://".toList ++ a) st = call (b.get c) (p ++ a) st ∧
    (∀ (res : Ctor → GoString → Result) (rs : Pkg (List Call)),
      rs.protocols.Load s = none →
      New (recording res) (s ++ "://".toList ++ a) rs
        = (res c (p ++ a), ⟨rs.protocols, rs.env ++ [⟨c, p ++ a⟩]⟩)) ∧
    wiring.map (fun e => e.1) = argSchemes := by
  have hs : ¬ "://".toList <:+: s := wiring_scheme_no_sep s p c hw
  have key : ∀ {τ : Type} (d : Builtins τ) (ts : Pkg τ), ts.protocols.Load s = none →
      New d (s ++ "://".toList ++ a) ts = call (d.get c) (p ++ a) ts := by
    intro τ d ts htl
    rw [New_of_unregistered d ts _ s a (splitOpts_sep s a hs) htl]
    exact builtin_nonempty_arg d ts s p a c hw ha
  refine ⟨key b st hl, ?_, by decide⟩
  intro res rs hrl
  rw [key (recording res) rs hrl]
  cases c <;> rfl

theorem C9_constructor_result_passed_through_witness :
    ("https".toList, Ctor.httpClient, "https://".toList) ∈ wiring ∧
    "example.org/in".toList ≠ [] ∧
    New (recording sampleRes) ("https".toList ++ "://".toList ++ "example.org/in".toList)
        samplePkg
      = ((.sink 22, .nil),
          ⟨SyncMap.empty, [⟨.httpClient, "https://example.org/in".toList⟩]⟩) :=
  ⟨by decide, by decide,
   ((C9_constructor_result_passed_through (recording sampleRes) samplePkg "https".toList
      "https://".toList "example.org/in".toList .httpClient (by decide) (by decide) rfl).2.1
        sampleRes samplePkg rfl).trans rfl⟩

/-- Claim C10: `stdout` and `stderr` take no argument.  With no user
registration for the scheme, `New` on `stdout` and on `stdout://a`, for every
`a`, returns `os.Stdout` with a nil error, and on `stderr` and `stderr://a`
returns `os.Stderr` with a nil error; the argument is ignored, nothing is
called and the package state is unchanged. -/
theorem C10_stdout_stderr_take_no_argument {σ : Type} (b : Builtins σ) (st : Pkg σ)
    (a : GoString) :
    (st.protocols.Load "stdout".toList = none →
      New b "stdout".toList st = ((.Stdout, .nil), st) ∧
      New b ("stdout".toList ++ "://".toList ++ a) st = ((.Stdout, .nil), st)) ∧
    (st.protocols.Load "stderr".toList = none →
      New b "stderr".toList st = ((.Stderr, .nil), st) ∧
      New b ("stderr".toList ++ "://".toList ++ a) st = ((.Stderr, .nil), st)) := by
  refine ⟨fun hl => ⟨?_, ?_⟩, fun hl => ⟨?_, ?_⟩⟩
  · exact (New_of_unregistered b st _ _ [] (by rfl) hl).trans (builtin_stdout b st [])
  · exact (New_of_unregistered b st _ _ a (splitOpts_sep _ a (by decide)) hl).trans
      (builtin_stdout b st a)
  · exact (New_of_unregistered b st _ _ [] (by rfl) hl).trans (builtin_stderr b st [])
  · exact (New_of_unregistered b st _ _ a (splitOpts_sep _ a (by decide)) hl).trans
      (builtin_stderr b st a)

theorem C10_stdout_stderr_take_no_argument_witness :
    samplePkg.protocols.Load "stdout".toList = none ∧
    samplePkg.protocols.Load "stderr".toList = none ∧
    New (recording sampleRes) ("stdout".toList ++ "://".toList ++ "ignored".toList) samplePkg
      = ((.Stdout, .nil), samplePkg) ∧
    New (recording sampleRes) "stderr".toList samplePkg = ((.Stderr, .nil), samplePkg) :=
  ⟨rfl, rfl,
   ((C10_stdout_stderr_take_no_argument (recording sampleRes) samplePkg
      "ignored".toList).1 rfl).2,
   ((C10_stdout_stderr_take_no_argument (recording sampleRes) samplePkg
      "ignored".toList).2 rfl).1⟩

/-! ## Further facts about the dispatcher -/

theorem builtin_unknown {σ : Type} (b : Builtins σ) (st : Pkg σ) (p a : GoString)
    (hb : p ∉ builtinSchemes) :
    builtin b p a st = ((.nil, errors.New ("unknown output protocol: ".toList ++ p)), st) := by
  simp only [builtinSchemes, argSchemes, List.map_cons, List.map_nil, List.mem_cons,
    List.mem_singleton, List.not_mem_nil, or_false, not_or] at hb
  obtain ⟨h1, h2, h3, h4, h5, h6, h7, h8, h9, h10, h11, h12, h13, h14, h15, h16, h17⟩ := hb
  simp only [builtin, h1, h2, h3, h4, h5, h6, h7, h8, h9, h10, h11, h12, h13, h14, h15,
    h16, h17, if_false, or_self, ret]

theorem builtinSchemes_lower (s : GoString) (hs : s ∈ builtinSchemes) :
    s.map Char.toLower = s := by
  simp only [builtinSchemes, argSchemes, List.map_cons, List.map_nil, List.mem_cons,
    List.mem_singleton, List.not_mem_nil, or_false] at hs
  rcases hs with h | h | h | h | h | h | h | h | h | h | h | h | h | h | h | h | h <;>
    subst h <;> decide

theorem builtinSchemes_no_colon (s : GoString) (hs : s ∈ builtinSchemes) : ':' ∉ s := by
  simp only [builtinSchemes, argSchemes, List.map_cons, List.map_nil, List.mem_cons,
    List.mem_singleton, List.not_mem_nil, or_false] at hs
  rcases hs with h | h | h | h | h | h | h | h | h | h | h | h | h | h | h | h | h <;>
    subst h <;> decide

/-- Claim C11, refuted as stated: the example strings `tcp-listen:9000` and
`ws-listen::8080` contain no `"://"`, so with nothing registered `New` takes
the whole string as the scheme and fails with the unknown-scheme error; no
listening constructor is called. -/
theorem C11_colon_examples_are_unknown_schemes :
    New (recording sampleRes) "tcp-listen:9000".toList samplePkg
      = ((.nil, errors.New "unknown output protocol: tcp-listen:9000".toList), samplePkg) ∧
    New (recording sampleRes) "ws-listen::8080".toList samplePkg
      = ((.nil, errors.New "unknown output protocol: ws-listen::8080".toList), samplePkg) ∧
    UnknownScheme (New (recording sampleRes) "tcp-listen:9000".toList samplePkg).1.2 = true ∧
    (New (recording sampleRes) "tcp-listen:9000".toList samplePkg).2.env = [] :=
  ⟨rfl, rfl, by decide, rfl⟩

/-- Claim C11, amended: with no user registrations, `New("stdout")` yields the
stdout sink and `New("file:///path")` calls the file constructor with `/path`.
The strings `tcp-listen:9000` and `ws-listen::8080` have no `"://"` and fail
with the unknown-scheme error naming the whole string; the listening
constructors are reached by `tcp-listen://:9000` (argument `:9000`) and
`ws-listen://:8080` (argument `:8080`). -/
theorem C11_spec_examples {σ : Type} (b : Builtins σ) (st : Pkg σ)
    (hnone : ∀ k, st.protocols.Load k = none) :
    New b "stdout".toList st = ((.Stdout, .nil), st) ∧
    New b "file:///path".toList st = call b.file "/path".toList st ∧
    New b "tcp-listen:9000".toList st
      = ((.nil, errors.New "unknown output protocol: tcp-listen:9000".toList), st) ∧
    New b "ws-listen::8080".toList st
      = ((.nil, errors.New "unknown output protocol: ws-listen::8080".toList), st) ∧
    New b "tcp-listen://:9000".toList st = call b.tcpListen ":9000".toList st ∧
    New b "ws-listen://:8080".toList st = call b.wsListen ":8080".toList st := by
  refine ⟨?_, ?_, ?_, ?_, ?_, ?_⟩
  · exact (New_of_unregistered b st _ "stdout".toList [] (by rfl) (hnone _)).trans rfl
  · exact (New_of_unregistered b st _ "file".toList "/path".toList (by rfl) (hnone _)).trans rfl
  · exact (New_of_unregistered b st _ "tcp-listen:9000".toList [] (by rfl) (hnone _)).trans rfl
  · exact (New_of_unregistered b st _ "ws-listen::8080".toList [] (by rfl) (hnone _)).trans rfl
  · exact (New_of_unregistered b st _ "tcp-listen".toList ":9000".toList (by rfl)
      (hnone _)).trans rfl
  · exact (New_of_unregistered b st _ "ws-listen".toList ":8080".toList (by rfl)
      (hnone _)).trans rfl

theorem C11_spec_examples_witness :
    (∀ k, samplePkg.protocols.Load k = none) ∧
    (New (recording sampleRes) "file:///path".toList samplePkg).2.env
      = [⟨.file, "/path".toList⟩] ∧
    (New (recording sampleRes) "tcp-listen://:9000".toList samplePkg).2.env
      = [⟨.tcpListen, ":9000".toList⟩] :=
  ⟨fun _ => rfl,
   (congrArg (fun x => x.2.env)
     (C11_spec_examples (recording sampleRes) samplePkg (fun _ => rfl)).2.1).trans rfl,
   (congrArg (fun x => x.2.env)
     (C11_spec_examples (recording sampleRes) samplePkg (fun _ => rfl)).2.2.2.2.1).trans rfl⟩

/-- Claim C12: scheme matching is exact and case-sensitive.  With no user
registrations, when the scheme part of the input differs from a built-in name
`s` only in letter case, `New` fails with the unknown-scheme error; and a
handler registered under a name is not found under any other spelling, so
after `Register(s, h)` the same input still fails the same way. -/
theorem C12_scheme_match_is_case_sensitive {σ : Type} (b : Builtins σ) (st : Pkg σ)
    (opts s : GoString) (h : Handler σ) (hs : s ∈ builtinSchemes)
    (hcase : (splitOpts opts).1.map Char.toLower = s.map Char.toLower)
    (hne : (splitOpts opts).1 ≠ s) (hnone : ∀ k, st.protocols.Load k = none) :
    New b opts st
      = ((.nil, errors.New ("unknown output protocol: ".toList ++ (splitOpts opts).1)), st) ∧
    (Register s h st).protocols.Load (splitOpts opts).1 = none ∧
    New b opts (Register s h st)
      = ((.nil, errors.New ("unknown output protocol: ".toList ++ (splitOpts opts).1)),
          Register s h st) ∧
    (∀ (t u : GoString) (g : Handler σ), u ≠ t → (Register t g st).protocols.Load u = none) := by
  have hnb : (splitOpts opts).1 ∉ builtinSchemes := by
    intro hmem
    apply hne
    rw [← builtinSchemes_lower _ hmem, hcase, builtinSchemes_lower s hs]
  have hreg : (Register s h st).protocols.Load (splitOpts opts).1 = none :=
    (Load_Register_other s _ h st hne).trans (hnone _)
  refine ⟨?_, hreg, ?_, ?_⟩
  · rw [New_of_unregistered b st opts (splitOpts opts).1 (splitOpts opts).2 rfl (hnone _)]
    exact builtin_unknown b st _ _ hnb
  · rw [New_of_unregistered b (Register s h st) opts (splitOpts opts).1 (splitOpts opts).2 rfl
      hreg]
    exact builtin_unknown b _ _ _ hnb
  · intro t u g hut
    exact (Load_Register_other t u g st hut).trans (hnone _)

theorem C12_scheme_match_is_case_sensitive_witness :
    "tcp".toList ∈ builtinSchemes ∧
    (splitOpts "Tcp://x".toList).1.map Char.toLower = "tcp".toList.map Char.toLower ∧
    (splitOpts "Tcp://x".toList).1 ≠ "tcp".toList ∧
    New (recording sampleRes) "Tcp://x".toList samplePkg
      = ((.nil, errors.New "unknown output protocol: Tcp".toList), samplePkg) ∧
    (New (recording sampleRes) "Tcp://x".toList
        (Register "tcp".toList sampleHandler samplePkg)).1
      = (.nil, errors.New "unknown output protocol: Tcp".toList) :=
  ⟨by decide, by decide, by decide,
   (C12_scheme_match_is_case_sensitive (recording sampleRes) samplePkg "Tcp://x".toList
      "tcp".toList sampleHandler (by decide) (by decide) (by decide) (fun _ => rfl)).1,
   congrArg Prod.fst
     (C12_scheme_match_is_case_sensitive (recording sampleRes) samplePkg "Tcp://x".toList
        "tcp".toList sampleHandler (by decide) (by decide) (by decide) (fun _ => rfl)).2.2.1⟩

/-! ## The listening sinks: invariants -/

theorem step_closed (b : Broadcaster) (op : Op) (hc : b.closed = true) :
    (b.step op).closed = true := by
  cases op <;>
    simp [Broadcaster.step, Broadcaster.accept, Broadcaster.send, Broadcaster.connError,
      Broadcaster.write, Broadcaster.close, hc]

theorem run_closed (ops : List Op) (b : Broadcaster) (hc : b.closed = true) :
    (Broadcaster.run ops b).closed = true := by
  induction ops generalizing b with
  | nil => exact hc
  | cons op ops ih => exact ih (b.step op) (step_closed b op hc)

theorem step_closed_empty (b : Broadcaster) (op : Op)
    (hinv : b.closed = true → b.subscribers = []) :
    (b.step op).closed = true → (b.step op).subscribers = [] := by
  cases hc : b.closed with
  | true =>
    have hs := hinv hc
    cases op <;>
      simp [Broadcaster.step, Broadcaster.accept, Broadcaster.send, Broadcaster.connError,
        Broadcaster.write, Broadcaster.close, hc, hs]
  | false =>
    cases op <;>
      simp [Broadcaster.step, Broadcaster.accept, Broadcaster.send, Broadcaster.connError,
        Broadcaster.write, Broadcaster.close, hc]

theorem run_closed_empty (ops : List Op) (b : Broadcaster)
    (hinv : b.closed = true → b.subscribers = []) :
    (Broadcaster.run ops b).closed = true → (Broadcaster.run ops b).subscribers = [] := by
  induction ops generalizing b with
  | nil => exact hinv
  | cons op ops ih => exact ih (b.step op) (step_closed_empty b op hinv)

theorem send_queue_le (s : Subscriber) (n : Nat) (h : s.queue.length ≤ n) :
    s.send.queue.length ≤ n := by
  unfold Subscriber.send
  split
  · split
    · exact h
    · rename_i payload rest heq
      rw [heq] at h
      simp only [List.length_cons] at h
      show rest.length ≤ n
      omega
  · exact h

theorem step_bounded (b : Broadcaster) (op : Op)
    (hinv : ∀ s ∈ b.subscribers, s.queue.length ≤ queueSize) :
    ∀ s ∈ (b.step op).subscribers, s.queue.length ≤ queueSize := by
  cases op with
  | accept id =>
    intro s hs
    simp only [Broadcaster.step, Broadcaster.accept] at hs
    split at hs
    · exact hinv s hs
    · simp only [List.mem_append, List.mem_singleton] at hs
      rcases hs with hs | hs
      · exact hinv s hs
      · subst hs
        simp
  | send id =>
    intro s hs
    simp only [Broadcaster.step, Broadcaster.send, List.mem_map] at hs
    obtain ⟨t, ht, rfl⟩ := hs
    split
    · exact send_queue_le t _ (hinv t ht)
    · exact hinv t ht
  | connError id =>
    intro s hs
    simp only [Broadcaster.step, Broadcaster.connError] at hs
    exact hinv s (List.mem_of_mem_filter hs)
  | write payload =>
    intro s hs
    simp only [Broadcaster.step, Broadcaster.write] at hs
    split at hs
    · exact hinv s hs
    · simp only [List.mem_map, List.mem_filter, decide_eq_true_eq] at hs
      obtain ⟨t, ⟨-, hlt⟩, rfl⟩ := hs
      simp only [Subscriber.enqueue, List.length_append, List.length_singleton]
      omega
  | close =>
    intro s hs
    simp only [Broadcaster.step, Broadcaster.close] at hs
    split at hs
    · exact hinv s hs
    · simp at hs

theorem run_bounded (ops : List Op) (b : Broadcaster)
    (hinv : ∀ s ∈ b.subscribers, s.queue.length ≤ queueSize) :
    ∀ s ∈ (Broadcaster.run ops b).subscribers, s.queue.length ≤ queueSize := by
  induction ops generalizing b with
  | nil => exact hinv
  | cons op ops ih => exact ih (b.step op) (step_bounded b op hinv)

theorem close_of_closed (b : Broadcaster) (hc : b.closed = true) : b.close = (none, b) := by
  simp [Broadcaster.close, hc]

/-- Claim C13, on the modelled listening sink: in every state a listening
sink can reach, `close` succeeds and leaves no subscriber in the set, every
subscriber of the moment is dropped with its connection closed and marked
not-alive, the listener is released, every later `write` fails with `Closed`
whatever happens in between, and a second `close` changes nothing and
succeeds. -/
theorem C13_close_of_listening_sink (before later : List Op) (payload : Payload) :
    (Broadcaster.run before Broadcaster.listen).close.1 = none ∧
    (Broadcaster.run before Broadcaster.listen).close.2.subscribers = [] ∧
    (Broadcaster.run before Broadcaster.listen).close.2.closed = true ∧
    (∀ s ∈ (Broadcaster.run before Broadcaster.listen).subscribers,
      s.teardown ∈ (Broadcaster.run before Broadcaster.listen).close.2.dropped ∧
      s.teardown.connected = false ∧ s.teardown.alive = false) ∧
    ((Broadcaster.run later (Broadcaster.run before Broadcaster.listen).close.2).write
        payload).1 = (0, some SinkError.Closed) ∧
    (Broadcaster.run before Broadcaster.listen).close.2.close
      = (none, (Broadcaster.run before Broadcaster.listen).close.2) := by
  generalize hb : Broadcaster.run before Broadcaster.listen = b
  have hempty : b.closed = true → b.subscribers = [] := by
    rw [← hb]
    exact run_closed_empty before Broadcaster.listen (fun h => by simp [Broadcaster.listen] at h)
  have hclosed : b.close.2.closed = true := by
    unfold Broadcaster.close
    split
    · assumption
    · rfl
  refine ⟨?_, ?_, hclosed, ?_, ?_, ?_⟩
  · unfold Broadcaster.close
    split <;> rfl
  · unfold Broadcaster.close
    split
    · rename_i hc
      exact hempty hc
    · rfl
  · intro s hs
    refine ⟨?_, rfl, rfl⟩
    unfold Broadcaster.close
    split
    · rename_i hc
      rw [hempty hc] at hs
      simp at hs
    · exact List.mem_append_right _ (List.mem_map_of_mem _ hs)
  · have hc := run_closed later b.close.2 hclosed
    simp [Broadcaster.write, hc]
  · exact close_of_closed _ hclosed

theorem C13_close_of_listening_sink_witness :
    (Broadcaster.run [.accept 1, .accept 2, .write [104, 105]] Broadcaster.listen).close.2
      = { subscribers := []
          closed := true
          listening := false
          dropped :=
            [{ id := 1, queue := [[104, 105]], connected := false, received := [],
               alive := false },
             { id := 2, queue := [[104, 105]], connected := false, received := [],
               alive := false }] } ∧
    ((Broadcaster.run [.accept 3, .send 1]
        (Broadcaster.run [.accept 1, .accept 2, .write [104, 105]]
          Broadcaster.listen).close.2).write [33]).1 = (0, some SinkError.Closed) :=
  ⟨by decide,
   (C13_close_of_listening_sink [.accept 1, .accept 2, .write [104, 105]]
      [.accept 3, .send 1] [33]).2.2.2.2.1⟩

/-- Claim C15: the package constant `queueSize` is 10.  On the modelled
listening sink, in every state a sink can reach no subscriber holds more than
10 queued payloads, and a `write` on a sink that is not closed succeeds with
the payload's length: each subscriber with 10 pending payloads is dropped
(connection closed, marked not-alive, no longer in the set), each subscriber
with room gets the payload at the end of its queue, and nobody else is left
in the set. -/
theorem C15_queue_bound_and_overflow (before : List Op) (payload : Payload) :
    queueSize = 10 ∧
    (∀ s ∈ (Broadcaster.run before Broadcaster.listen).subscribers,
      s.queue.length ≤ queueSize) ∧
    ((Broadcaster.run before Broadcaster.listen).closed = false →
      ((Broadcaster.run before Broadcaster.listen).write payload).1
        = (payload.length, none) ∧
      (∀ s ∈ (Broadcaster.run before Broadcaster.listen).subscribers,
        s.queue.length = queueSize →
        s.teardown ∈ ((Broadcaster.run before Broadcaster.listen).write payload).2.dropped ∧
        s.teardown.connected = false ∧ s.teardown.alive = false) ∧
      (∀ s ∈ (Broadcaster.run before Broadcaster.listen).subscribers,
        s.queue.length < queueSize →
        s.enqueue payload
          ∈ ((Broadcaster.run before Broadcaster.listen).write payload).2.subscribers) ∧
      (∀ t ∈ ((Broadcaster.run before Broadcaster.listen).write payload).2.subscribers,
        ∃ s ∈ (Broadcaster.run before Broadcaster.listen).subscribers,
          s.queue.length < queueSize ∧ t = s.enqueue payload)) := by
  have hbound := run_bounded before Broadcaster.listen
    (fun s hs => by simp [Broadcaster.listen] at hs)
  generalize Broadcaster.run before Broadcaster.listen = b at hbound ⊢
  refine ⟨rfl, hbound, ?_⟩
  intro hc
  refine ⟨?_, ?_, ?_, ?_⟩
  · simp [Broadcaster.write, hc]
  · intro s hs hfull
    refine ⟨?_, rfl, rfl⟩
    simp only [Broadcaster.write, hc, Bool.false_eq_true, if_false]
    apply List.mem_append_right
    apply List.mem_map_of_mem
    simp only [List.mem_filter, decide_eq_true_eq]
    exact ⟨hs, by omega⟩
  · intro s hs hroom
    simp only [Broadcaster.write, hc, Bool.false_eq_true, if_false]
    apply List.mem_map_of_mem
    simp only [List.mem_filter, decide_eq_true_eq]
    exact ⟨hs, hroom⟩
  · intro t ht
    simp only [Broadcaster.write, hc, Bool.false_eq_true, if_false, List.mem_map,
      List.mem_filter, decide_eq_true_eq] at ht
    obtain ⟨s, ⟨hs, hroom⟩, rfl⟩ := ht
    exact ⟨s, hs, hroom, rfl⟩

theorem C15_queue_bound_and_overflow_witness :
    (Broadcaster.run (.accept 1 :: List.replicate 10 (.write [7])) Broadcaster.listen).closed
      = false ∧
    (Broadcaster.run (.accept 1 :: List.replicate 10 (.write [7]))
        Broadcaster.listen).subscribers
      = [{ id := 1, queue := List.replicate 10 [7], connected := true, received := [],
           alive := true }] ∧
    ((Broadcaster.run (.accept 1 :: List.replicate 10 (.write [7]))
        Broadcaster.listen).write [8]).1 = (1, none) ∧
    ((Broadcaster.run (.accept 1 :: List.replicate 10 (.write [7]) ++ [.accept 2])
        Broadcaster.listen).write [8]).2
      = { subscribers :=
            [{ id := 2, queue := [[8]], connected := true, received := [], alive := true }]
          closed := false
          listening := true
          dropped :=
            [{ id := 1, queue := List.replicate 10 [7], connected := false, received := [],
               alive := false }] } :=
  ⟨by decide, by decide,
   ((C15_queue_bound_and_overflow (.accept 1 :: List.replicate 10 (.write [7])) [8]).2.2
      (by decide)).1,
   by decide⟩

/-- Claim C16, refuted as stated: a name that itself contains `"://"` is cut
by `New`.  After `Register("a://b", h)`, `New("a://b")` looks up scheme `a`
with argument `b` and fails with `unknown output protocol: a`; it does not
return `h("")`. -/
theorem C16_name_with_separator_is_cut :
    (New (recording sampleRes) "a://b".toList
        (Register "a://b".toList lengthHandler samplePkg)).1
      = (.nil, errors.New "unknown output protocol: a".toList) ∧
    splitOpts "a://b".toList = ("a".toList, "b".toList) ∧
    (call lengthHandler [] (Register "a://b".toList lengthHandler samplePkg)).1
      = (.sink 0, .nil) ∧
    (New (recording sampleRes) "a://b".toList
        (Register "a://b".toList lengthHandler samplePkg)).1
      ≠ (call lengthHandler [] (Register "a://b".toList lengthHandler samplePkg)).1 :=
  ⟨rfl, by decide, rfl, by decide⟩

/-- Claim C16, amended: a user-registered handler bypasses the empty-argument
check.  For every scheme `s` that does not contain `"://"`, built-in names
included, after `Register(s, h)` both `New(s)` and `New(s ++ "://")` return
exactly `h("")`: the empty argument is passed to the handler as it is, no
missing-argument error of `New` takes its place, whatever the built-in
constructors are. -/
theorem C16_registered_handler_gets_empty_argument {σ : Type} (b : Builtins σ)
    (st : Pkg σ) (s : GoString) (h : Handler σ) (hs : ¬ "://".toList <:+: s) :
    New b s (Register s h st) = call h [] (Register s h st) ∧
    New b (s ++ "://".toList) (Register s h st) = call h [] (Register s h st) := by
  refine ⟨?_, ?_⟩
  · exact New_of_registered b _ s s [] h (splitOpts_no_sep s hs) (Load_Register_same s h st)
  · have hsplit := splitOpts_sep s [] hs
    rw [List.append_nil] at hsplit
    exact New_of_registered b _ _ s [] h hsplit (Load_Register_same s h st)

theorem C16_registered_handler_gets_empty_argument_witness :
    ¬ "://".toList <:+: "tcp".toList ∧
    "tcp".toList ∈ argSchemes ∧
    New (recording sampleRes) "tcp".toList (Register "tcp".toList lengthHandler samplePkg)
      = ((.sink 0, .nil), Register "tcp".toList lengthHandler samplePkg) ∧
    New (recording sampleRes) ("tcp".toList ++ "://".toList)
        (Register "tcp".toList lengthHandler samplePkg)
      = ((.sink 0, .nil), Register "tcp".toList lengthHandler samplePkg) :=
  ⟨by decide, by decide,
   (C16_registered_handler_gets_empty_argument (recording sampleRes) samplePkg "tcp".toList
      lengthHandler (by decide)).1.trans rfl,
   (C16_registered_handler_gets_empty_argument (recording sampleRes) samplePkg "tcp".toList
      lengthHandler (by decide)).2.trans rfl⟩

/-- Claim C17: an input without `"://"` is all scheme.  For every `s` that
contains no `"://"`, `New` parses `s` into scheme `s` and an empty argument,
`New(s)` and `New(s ++ "://")` have the same outcome, and when `s` contains a
colon it is no built-in name, so it resolves only through a handler
registered under the whole string and otherwise fails as an unknown scheme. -/
theorem C17_input_without_separator {σ : Type} (b : Builtins σ) (st : Pkg σ)
    (s : GoString) (hs : ¬ "://".toList <:+: s) :
    splitOpts s = (s, []) ∧
    New b s st = New b (s ++ "://".toList) st ∧
    New b s st =
      (match st.protocols.Load s with
       | some fn => call fn [] st
       | none => builtin b s [] st) ∧
    (':' ∈ s → s ∉ builtinSchemes ∧
      (st.protocols.Load s = none →
        New b s st = ((.nil, errors.New ("unknown output protocol: ".toList ++ s)), st))) := by
  have h1 := splitOpts_no_sep s hs
  have h2 := splitOpts_sep s [] hs
  rw [List.append_nil] at h2
  have hN : New b s st =
      (match st.protocols.Load s with
       | some fn => call fn [] st
       | none => builtin b s [] st) := by
    cases hl : st.protocols.Load s with
    | none => exact New_of_unregistered b st s s [] h1 hl
    | some fn => exact New_of_registered b st s s [] fn h1 hl
  have hN2 : New b (s ++ "://".toList) st =
      (match st.protocols.Load s with
       | some fn => call fn [] st
       | none => builtin b s [] st) := by
    cases hl : st.protocols.Load s with
    | none => exact New_of_unregistered b st _ s [] h2 hl
    | some fn => exact New_of_registered b st _ s [] fn h2 hl
  refine ⟨h1, hN.trans hN2.symm, hN, ?_⟩
  intro hc
  have hnb : s ∉ builtinSchemes := fun hmem => builtinSchemes_no_colon s hmem hc
  refine ⟨hnb, fun hl => ?_⟩
  rw [New_of_unregistered b st s s [] h1 hl]
  exact builtin_unknown b st s [] hnb

theorem C17_input_without_separator_witness :
    ¬ "://".toList <:+: "localhost:9000".toList ∧
    ':' ∈ "localhost:9000".toList ∧
    splitOpts "localhost:9000".toList = ("localhost:9000".toList, []) ∧
    New (recording sampleRes) "localhost:9000".toList samplePkg
      = ((.nil, errors.New "unknown output protocol: localhost:9000".toList), samplePkg) :=
  ⟨by decide, by decide,
   (C17_input_without_separator (recording sampleRes) samplePkg "localhost:9000".toList
      (by decide)).1,
   ((C17_input_without_separator (recording sampleRes) samplePkg "localhost:9000".toList
      (by decide)).2.2.2 (by decide)).2 rfl⟩

/-- Claim C18: the URL-style dial schemes hand the constructor the caller's
original string.  With no user registration for the scheme and a non-empty
argument `a`, `New(s ++ "://" ++ a)` calls the HTTP client constructor with
`s ++ "://" ++ a` for `s` in http, https and the WebSocket client constructor
with `s ++ "://" ++ a` for `s` in ws, wss; for file, tcp, unix and the eight
listening names it calls the scheme's constructor with `a` alone. -/
theorem C18_url_schemes_get_original_string {σ : Type} (b : Builtins σ) (st : Pkg σ)
    (a : GoString) (ha : a ≠ []) :
    (∀ s ∈ ["http".toList, "https".toList], st.protocols.Load s = none →
      New b (s ++ "://".toList ++ a) st = call b.httpClient (s ++ "://".toList ++ a) st) ∧
    (∀ s ∈ ["ws".toList, "wss".toList], st.protocols.Load s = none →
      New b (s ++ "://".toList ++ a) st = call b.wsClient (s ++ "://".toList ++ a) st) ∧
    (∀ (s : GoString) (c : Ctor), (s, c, []) ∈ wiring → st.protocols.Load s = none →
      New b (s ++ "://".toList ++ a) st = call (b.get c) a st) ∧
    (wiring.filter (fun e => e.2.2 = [])).map (fun e => e.1)
      = ["file", "http-listen", "http-server", "tcp", "tcp-listen", "tcp-server", "unix",
          "unix-listen", "unix-server", "ws-listen", "ws-server"].map String.toList := by
  refine ⟨?_, ?_, ?_, by decide⟩
  · intro s hs hl
    simp only [List.mem_cons, List.mem_singleton, List.not_mem_nil, or_false] at hs
    rcases hs with h | h <;> subst h <;>
      rw [New_of_unregistered b st _ _ a (splitOpts_sep _ a (by decide)) hl] <;>
      simp [builtin, ha]
  · intro s hs hl
    simp only [List.mem_cons, List.mem_singleton, List.not_mem_nil, or_false] at hs
    rcases hs with h | h <;> subst h <;>
      rw [New_of_unregistered b st _ _ a (splitOpts_sep _ a (by decide)) hl] <;>
      simp [builtin, ha]
  · intro s c hw hl
    rw [New_of_unregistered b st _ s a (splitOpts_sep s a (wiring_scheme_no_sep s [] c hw)) hl]
    exact builtin_nonempty_arg b st s [] a c hw ha

theorem C18_url_schemes_get_original_string_witness :
    "example.org:80/ws".toList ≠ [] ∧
    (New (recording sampleRes) ("wss".toList ++ "://".toList ++ "example.org:80/ws".toList)
        samplePkg).2.env = [⟨.wsClient, "wss://example.org:80/ws".toList⟩] ∧
    (New (recording sampleRes) ("tcp".toList ++ "://".toList ++ "example.org:80/ws".toList)
        samplePkg).2.env = [⟨.tcpClient, "example.org:80/ws".toList⟩] :=
  ⟨by decide,
   (congrArg (fun x => x.2.env)
     ((C18_url_schemes_get_original_string (recording sampleRes) samplePkg
        "example.org:80/ws".toList (by decide)).2.1 "wss".toList (by decide) rfl)).trans rfl,
   (congrArg (fun x => x.2.env)
     ((C18_url_schemes_get_original_string (recording sampleRes) samplePkg
        "example.org:80/ws".toList (by decide)).2.2.1 "tcp".toList .tcpClient (by decide)
          rfl)).trans rfl⟩


/-! ## The listening sinks: order of delivery -/

end output
